import Mathlib

/-!
Shallow embedding of src/main.rs of elgato-light-cli, a CLI controlling an
Elgato key light.

The embedding covers:

* the structopt-derived command-line parser (`parse`), following clap v2
  default semantics for the fragment this CLI uses: subcommand dispatch,
  long and short flags taking the following token as their value, `--` as
  the positional-escape separator, rejection of unrecognised leading-hyphen
  tokens (neither AllowLeadingHyphen nor AllowNegativeNumbers is set, and
  the Brightness help text directs users to `--` for negative deltas),
  default values, and Rust `FromStr` integer parsing with the type's range
  check.  Flag-joined forms such as `--brightness=5` or `-b5` and repeated
  occurrences of a flag are outside the modelled fragment; no claim
  exercises them.  The token list excludes the program name.
* `Ipv4Addr::from_str` (`parseIpv4`): four dot-separated decimal octets,
  each at most 255, no leading zeros.
* the orchestration logic of `ElgatoLight::run` and `ensure_light_on` as a
  small effect program (`Prog`) over the device facade, executed by `execP`
  against an abstract device: `Device.states k` is the lights list returned
  by the k-th successful get, `Device.respond n` is the failure (if any) of
  the n-th facade call, and the execution returns the list of facade calls
  issued, in order — a failing call is issued and aborts the rest, which is
  exactly the Rust question-mark operator.
* the 8-bit arithmetic of the brightness-delta computation on line 110,
  `((current_brightness as i8) + *brightness).clamp(0, 100) as u8`:
  `i8FromU8` is the u8-to-i8 cast, and `wrapI8` the wrap-around that
  release builds apply when the i8 addition overflows; builds with overflow
  checks panic exactly where `i8AddOverflows` holds.
-/

namespace Elgato

/-- src/main.rs line 7: the fallback device address used when the
ip-address flag is omitted. -/
def DEFAULT_IP_ADDRESS : String := "192.168.0.25"

/-- The structopt-derived command enum (src/main.rs lines 14-64), one
constructor per subcommand carrying its parsed field values.  On.brightness
is a u8, Brightness.brightness an i8, the temperatures u32, all modelled
over Nat and Int with the range enforced by the parser. -/
inductive ElgatoLight where
  | on (brightness : Nat) (temperature : Nat) (ip_address : String)
  | off (ip_address : String)
  | brightness (brightness : Int) (ip_address : String)
  | temperature (temperature : Nat) (ip_address : String)
  | status (ip_address : String)
deriving DecidableEq, Repr

/-- Numeric value of a nonempty all-digit character list; none otherwise. -/
def digitsVal (cs : List Char) : Option Nat :=
  if cs ≠ [] ∧ cs.all Char.isDigit then
    some (cs.foldl (fun a c => a * 10 + (c.toNat - 48)) 0)
  else none

/-- Rust unsigned FromStr: optional leading plus, digits, range check
against the type's maximum. -/
def parseUnsigned (limit : Nat) (s : String) : Option Nat :=
  let cs :=
    match s.toList with
    | '+' :: rest => rest
    | cs => cs
  match digitsVal cs with
  | some n => if n ≤ limit then some n else none
  | none => none

/-- Rust i8 FromStr: optional sign, digits, range -128..=127. -/
def parseI8 (s : String) : Option Int :=
  match s.toList with
  | '-' :: rest =>
    match digitsVal rest with
    | some n => if n ≤ 128 then some (-(n : Int)) else none
    | none => none
  | '+' :: rest =>
    match digitsVal rest with
    | some n => if n ≤ 127 then some (n : Int) else none
    | none => none
  | cs =>
    match digitsVal cs with
    | some n => if n ≤ 127 then some (n : Int) else none
    | none => none

/-- Parse-time failures; clap prints a usage error and main exits non-zero
in every one of these cases. -/
inductive ParseError where
  | missingSubcommand
  | unknownSubcommand (tok : String)
  | unexpectedArgument (tok : String)
  | missingValue (flag : String)
  | missingArgument (name : String)
  | invalidValue (tok : String)
deriving DecidableEq, Repr

/-- Clap v2 reads a token of length at least two that starts with a hyphen
as a flag, since AllowLeadingHyphen and AllowNegativeNumbers are not set. -/
def looksLikeFlag (tok : String) : Bool :=
  match tok.toList with
  | '-' :: _ :: _ => true
  | _ => false

/-- Finish the on subcommand: apply the default value strings of
src/main.rs lines 20 and 28 and run FromStr on the collected values. -/
def finishOn (b t i : Option String) : Except ParseError ElgatoLight :=
  match parseUnsigned 255 (b.getD "10"), parseUnsigned 4294967295 (t.getD "3000") with
  | some bv, some tv => .ok (.on bv tv (i.getD DEFAULT_IP_ADDRESS))
  | none, _ => .error (.invalidValue (b.getD "10"))
  | _, none => .error (.invalidValue (t.getD "3000"))

/-- Token loop of the on subcommand (src/main.rs lines 15-35): flags
brightness, temperature and ip-address, no positionals. -/
def parseOnArgs : List String → Option String → Option String → Option String →
    Except ParseError ElgatoLight
  | [], b, t, i => finishOn b t i
  | tok :: rest, b, t, i =>
    if tok = "-b" ∨ tok = "--brightness" then
      match rest with
      | v :: rest2 => parseOnArgs rest2 (some v) t i
      | [] => .error (.missingValue tok)
    else if tok = "-t" ∨ tok = "--temperature" then
      match rest with
      | v :: rest2 => parseOnArgs rest2 b (some v) i
      | [] => .error (.missingValue tok)
    else if tok = "-i" ∨ tok = "--ip-address" then
      match rest with
      | v :: rest2 => parseOnArgs rest2 b t (some v)
      | [] => .error (.missingValue tok)
    else if tok = "--" then
      match rest with
      | [] => finishOn b t i
      | v :: _ => .error (.unexpectedArgument v)
    else .error (.unexpectedArgument tok)

/-- Finish the brightness subcommand: the positional is required and parses
as an i8 (src/main.rs line 46); there is no -100..=100 check. -/
def finishBrightness (pos i : Option String) : Except ParseError ElgatoLight :=
  match pos with
  | none => .error (.missingArgument "brightness")
  | some s =>
    match parseI8 s with
    | some d => .ok (.brightness d (i.getD DEFAULT_IP_ADDRESS))
    | none => .error (.invalidValue s)

/-- Token loop of the brightness subcommand (src/main.rs lines 41-50): one
positional delta plus the ip-address flag; esc records that a previous
token was the `--` separator. -/
def parseBrightnessArgs : List String → Bool → Option String → Option String →
    Except ParseError ElgatoLight
  | [], _, pos, i => finishBrightness pos i
  | tok :: rest, esc, pos, i =>
    if esc then
      match pos with
      | none => parseBrightnessArgs rest true (some tok) i
      | some _ => .error (.unexpectedArgument tok)
    else if tok = "-i" ∨ tok = "--ip-address" then
      match rest with
      | v :: rest2 => parseBrightnessArgs rest2 false pos (some v)
      | [] => .error (.missingValue tok)
    else if tok = "--" then parseBrightnessArgs rest true pos i
    else if looksLikeFlag tok then .error (.unexpectedArgument tok)
    else
      match pos with
      | none => parseBrightnessArgs rest false (some tok) i
      | some _ => .error (.unexpectedArgument tok)

/-- Finish the temperature subcommand: required positional, u32. -/
def finishTemperature (pos i : Option String) : Except ParseError ElgatoLight :=
  match pos with
  | none => .error (.missingArgument "temperature")
  | some s =>
    match parseUnsigned 4294967295 s with
    | some t => .ok (.temperature t (i.getD DEFAULT_IP_ADDRESS))
    | none => .error (.invalidValue s)

/-- Token loop of the temperature subcommand (src/main.rs lines 51-58). -/
def parseTemperatureArgs : List String → Bool → Option String → Option String →
    Except ParseError ElgatoLight
  | [], _, pos, i => finishTemperature pos i
  | tok :: rest, esc, pos, i =>
    if esc then
      match pos with
      | none => parseTemperatureArgs rest true (some tok) i
      | some _ => .error (.unexpectedArgument tok)
    else if tok = "-i" ∨ tok = "--ip-address" then
      match rest with
      | v :: rest2 => parseTemperatureArgs rest2 false pos (some v)
      | [] => .error (.missingValue tok)
    else if tok = "--" then parseTemperatureArgs rest true pos i
    else if looksLikeFlag tok then .error (.unexpectedArgument tok)
    else
      match pos with
      | none => parseTemperatureArgs rest false (some tok) i
      | some _ => .error (.unexpectedArgument tok)

/-- Token loop of the off and status subcommands (src/main.rs lines 36-40
and 59-63): only the ip-address flag, no positionals. -/
def parseIpOnlyArgs (mk : String → ElgatoLight) :
    List String → Option String → Except ParseError ElgatoLight
  | [], i => .ok (mk (i.getD DEFAULT_IP_ADDRESS))
  | tok :: rest, i =>
    if tok = "-i" ∨ tok = "--ip-address" then
      match rest with
      | v :: rest2 => parseIpOnlyArgs mk rest2 (some v)
      | [] => .error (.missingValue tok)
    else if tok = "--" then
      match rest with
      | [] => .ok (mk (i.getD DEFAULT_IP_ADDRESS))
      | v :: _ => .error (.unexpectedArgument v)
    else .error (.unexpectedArgument tok)

/-- ElgatoLight::from_args over the raw argument tokens (program name
excluded): clap v2 subcommand dispatch for the enum of src/main.rs. -/
def parse : List String → Except ParseError ElgatoLight
  | [] => .error .missingSubcommand
  | cmd :: rest =>
    if cmd = "on" then parseOnArgs rest none none none
    else if cmd = "off" then parseIpOnlyArgs ElgatoLight.off rest none
    else if cmd = "brightness" then parseBrightnessArgs rest false none none
    else if cmd = "temperature" then parseTemperatureArgs rest false none none
    else if cmd = "status" then parseIpOnlyArgs ElgatoLight.status rest none
    else .error (.unknownSubcommand cmd)

/-- Split a character list at the dots, the tokenization used by
Ipv4Addr::from_str. -/
def splitDots : List Char → List (List Char)
  | [] => [[]]
  | c :: rest =>
    if c = '.' then [] :: splitDots rest
    else
      match splitDots rest with
      | h :: t => (c :: h) :: t
      | [] => [[c]]

/-- One decimal octet: one to three digits, no leading zero, at most 255. -/
def parseOctet (cs : List Char) : Option Nat :=
  if cs ≠ [] ∧ cs.length ≤ 3 ∧ cs.all Char.isDigit ∧
      (cs.length = 1 ∨ cs.head? ≠ some '0') then
    match digitsVal cs with
    | some n => if n ≤ 255 then some n else none
    | none => none
  else none

/-- Ipv4Addr::from_str: exactly four dot-separated octets. -/
def parseIpv4 (s : String) : Option (Nat × Nat × Nat × Nat) :=
  match splitDots s.toList with
  | [a, b, c, d] =>
    match parseOctet a, parseOctet b, parseOctet c, parseOctet d with
    | some x, some y, some z, some w => some (x, y, z, w)
    | _, _, _, _ => none
  | _ => none

/-- One light as reported by the device, the elgato_keylight Light struct:
a u8 on flag compared against 0 (named onFlag here because `on` is a
notation token in Lean), a u8 brightness, a temperature. -/
structure Light where
  onFlag : Nat
  brightness : Nat
  temperature : Nat
deriving DecidableEq, Repr

/-- One facade call issued by the orchestrator. -/
inductive Call where
  | get
  | setPower (b : Bool)
  | setBrightness (v : Nat)
  | setTemperature (t : Nat)
deriving DecidableEq, Repr

/-- Abstract device facade: states k is the lights list returned by the
k-th successful get, respond n the failure (if any) of the n-th facade
call, connect the failure (if any) of KeyLight::new_from_ip. -/
structure Device where
  states : Nat → List Light
  respond : Nat → Option Nat
  connect : Option Nat

/-- Orchestrator outcomes besides success: a facade error propagated by the
question-mark operator, or the Rust panic from indexing lights[0] on an
empty lights list, the program's only panic site reached on ordinary
control flow. -/
inductive RunErr where
  | device (e : Nat)
  | panic
deriving DecidableEq, Repr

/-- Two's-complement wrap of an integer into the i8 range: the behavior of
an overflowing i8 addition in a release build. -/
def wrapI8 (x : Int) : Int := (x + 128) % 256 - 128

/-- The cast current_brightness as i8 on src/main.rs line 110: u8 to i8,
same bit pattern. -/
def i8FromU8 (c : Nat) : Int := wrapI8 c

/-- Rust Ord::clamp on integers. -/
def clamp (x lo hi : Int) : Int := min (max x lo) hi

/-- Whether the i8 addition a + b leaves the i8 range, which panics in
builds with overflow checks. -/
def i8AddOverflows (a b : Int) : Prop := a + b < -128 ∨ 127 < a + b

instance (a b : Int) : Decidable (i8AddOverflows a b) :=
  inferInstanceAs (Decidable (a + b < -128 ∨ 127 < a + b))

/-- src/main.rs line 110: ((current_brightness as i8) + delta).clamp(0,100)
as u8, release semantics for the addition.  The clamp lands in 0..=100, so
the final u8 cast is value-preserving and toNat models it. -/
def newBrightness (c : Nat) (d : Int) : Nat :=
  (clamp (wrapI8 (i8FromU8 c + d)) 0 100).toNat

/-- Effect programs over the device facade: a get binds the lights list the
device returns, writes carry no result, and panic marks the Rust panic of
lights[0] on an empty list. -/
inductive Prog where
  | pure
  | panic
  | get (k : List Light → Prog)
  | put (c : Call) (k : Prog)

/-- ElgatoLight::ensure_light_on (src/main.rs lines 84-90) as the program
prefix it contributes: read the state, power on when lights[0].on == 0,
then continue with k. -/
def ensure_light_on (k : Prog) : Prog :=
  .get fun lights =>
    match lights.head? with
    | none => .panic
    | some l => if l.onFlag = 0 then .put (.setPower true) k else k

/-- ElgatoLight::run (src/main.rs lines 92-125): the facade-call program of
each command arm.  The Brightness arm is ensure_light_on followed by its
own get and the clamped write; the Status arm reads and only prints. -/
def ElgatoLight.run : ElgatoLight → Prog
  | .on b t _ =>
    .put (.setPower true) (.put (.setBrightness b) (.put (.setTemperature t) .pure))
  | .off _ => .put (.setPower false) .pure
  | .brightness d _ =>
    ensure_light_on
      (.get fun lights =>
        match lights.head? with
        | none => .panic
        | some l1 => .put (.setBrightness (newBrightness l1.brightness d)) .pure)
  | .temperature t _ => ensure_light_on (.put (.setTemperature t) .pure)
  | .status _ => .get fun _ => .pure

/-- Execute a program against a device: n is the index of the next facade
call, g the index of the next get.  Every issued call enters the trace; a
failing call aborts the continuation, as the question-mark operator does. -/
def execP : Prog → Device → Nat → Nat → List Call × Except RunErr Unit
  | .pure, _, _, _ => ([], .ok ())
  | .panic, _, _, _ => ([], .error .panic)
  | .get k, dev, n, g =>
    match dev.respond n with
    | some e => ([.get], .error (.device e))
    | none =>
      let p := execP (k (dev.states g)) dev (n + 1) (g + 1)
      (.get :: p.1, p.2)
  | .put c k, dev, n, g =>
    match dev.respond n with
    | some e => ([c], .error (.device e))
    | none =>
      let p := execP k dev (n + 1) g
      (c :: p.1, p.2)

/-- One full invocation of run against a device. -/
def ElgatoLight.exec (l : ElgatoLight) (dev : Device) :
    List Call × Except RunErr Unit :=
  execP (ElgatoLight.run l) dev 0 0

/-- The ip string extracted by the match of ElgatoLight::ip_address
(src/main.rs lines 68-74). -/
def ElgatoLight.ip_str : ElgatoLight → String
  | .on _ _ ip => ip
  | .off ip => ip
  | .brightness _ ip => ip
  | .temperature _ ip => ip
  | .status ip => ip

/-- Errors surfaced by main. -/
inductive MainErr where
  | parseErr (e : ParseError)
  | invalidIp
  | connectErr (e : Nat)
  | runErr (e : RunErr)
deriving DecidableEq, Repr

/-- src/main.rs main (lines 127-135): parse the arguments, validate the
address with Ipv4Addr::from_str, connect, then run; the trace is every
facade call issued during the invocation. -/
def mainRun (args : List String) (dev : Device) :
    List Call × Except MainErr Unit :=
  match parse args with
  | .error e => ([], .error (.parseErr e))
  | .ok light =>
    match parseIpv4 light.ip_str with
    | none => ([], .error .invalidIp)
    | some _ =>
      match dev.connect with
      | some e => ([], .error (.connectErr e))
      | none =>
        match ElgatoLight.exec light dev with
        | (tr, .ok u) => (tr, .ok u)
        | (tr, .error e) => (tr, .error (.runErr e))

/-- A device with one light on at brightness 90, temperature 4000, every
call succeeding: the device of the end-to-end example of the spec. -/
def dev90 : Device := ⟨fun _ => [⟨1, 90, 4000⟩], fun _ => none, none⟩

/-- A device whose light reports on; every call succeeds. -/
def devOn : Device := ⟨fun _ => [⟨1, 50, 3000⟩], fun _ => none, none⟩

/-- A powered-off device at brightness 20; every call succeeds. -/
def devOff : Device := ⟨fun _ => [⟨0, 20, 3000⟩], fun _ => none, none⟩

/-- A device answering every get with an empty lights list. -/
def devEmpty : Device := ⟨fun _ => [], fun _ => none, none⟩

/-- A device whose second facade call fails with error 7. -/
def devFail1 : Device :=
  ⟨fun _ => [⟨1, 50, 3000⟩], fun n => if n = 1 then some 7 else none, none⟩

/-- The same device with every facade call succeeding. -/
def Device.allOk (dev : Device) : Device := ⟨dev.states, fun _ => none, none⟩

/-- The clamp of line 110 bounds every delta result by 100. -/
theorem newBrightness_le (c : Nat) (d : Int) : newBrightness c d ≤ 100 := by
  unfold newBrightness clamp wrapI8 i8FromU8
  omega

/-- Programs whose set_brightness writes all carry values at most 100. -/
def brightnessBounded : Prog → Prop
  | .pure => True
  | .panic => True
  | .get k => ∀ lights, brightnessBounded (k lights)
  | .put c k => (∀ v, c = .setBrightness v → v ≤ 100) ∧ brightnessBounded k

/-- Executing a brightness-bounded program only sends brightness values at
most 100. -/
theorem brightnessBounded_exec (p : Prog) :
    ∀ (dev : Device) (n g : Nat) (v : Nat), brightnessBounded p →
      Call.setBrightness v ∈ (execP p dev n g).1 → v ≤ 100 := by
  induction p with
  | pure => intro dev n g v _ hm; simp [execP] at hm
  | panic => intro dev n g v _ hm; simp [execP] at hm
  | get k ih =>
    intro dev n g v hb hm
    cases h : dev.respond n with
    | some e => simp [execP, h] at hm
    | none =>
      simp only [execP, h, List.mem_cons] at hm
      rcases hm with hm | hm
      · exact absurd hm (by simp)
      · exact ih (dev.states g) dev (n + 1) (g + 1) v (hb (dev.states g)) hm
  | put c k ih =>
    intro dev n g v hb hm
    cases h : dev.respond n with
    | some e =>
      simp only [execP, h, List.mem_singleton] at hm
      exact hb.1 v hm.symm
    | none =>
      simp only [execP, h, List.mem_cons] at hm
      rcases hm with hm | hm
      · exact hb.1 v hm.symm
      · exact ih dev (n + 1) g v hb.2 hm

/-- Programs that issue no power write. -/
def noPower : Prog → Prop
  | .pure => True
  | .panic => True
  | .get k => ∀ lights, noPower (k lights)
  | .put c k => (∀ b, c ≠ .setPower b) ∧ noPower k

/-- Executing a program with no power write never puts set_power in the
trace. -/
theorem noPower_exec (p : Prog) :
    ∀ (dev : Device) (n g : Nat) (b : Bool), noPower p →
      Call.setPower b ∉ (execP p dev n g).1 := by
  induction p with
  | pure => intro dev n g b _; simp [execP]
  | panic => intro dev n g b _; simp [execP]
  | get k ih =>
    intro dev n g b hb
    cases h : dev.respond n with
    | some e => simp [execP, h]
    | none =>
      simp only [execP, h, List.mem_cons, not_or]
      exact ⟨by simp, ih (dev.states g) dev (n + 1) (g + 1) b (hb (dev.states g))⟩
  | put c k ih =>
    intro dev n g b hb
    cases h : dev.respond n with
    | some e =>
      simp only [execP, h, List.mem_singleton]
      exact fun hc => hb.1 b hc.symm
    | none =>
      simp only [execP, h, List.mem_cons, not_or]
      exact ⟨fun hc => hb.1 b hc.symm, ih dev (n + 1) g b hb.2⟩

/-- Count of set_power(true) calls in a trace. -/
def countPowerOn (tr : List Call) : Nat :=
  (tr.filter fun c => match c with | .setPower true => true | _ => false).length

theorem countPowerOn_cons (c : Call) (tr : List Call) :
    countPowerOn (c :: tr) =
      (if c = Call.setPower true then 1 else 0) + countPowerOn tr := by
  unfold countPowerOn
  rcases c with _ | b | v | t
  · simp [List.filter_cons]
  · cases b <;> simp [List.filter_cons]
    omega
  · simp [List.filter_cons]
  · simp [List.filter_cons]

theorem countPowerOn_eq_zero : ∀ tr : List Call,
    (∀ b, Call.setPower b ∉ tr) → countPowerOn tr = 0
  | [], _ => rfl
  | c :: tr, h => by
    have hc : ¬ c = Call.setPower true := fun hc => h true (by simp [hc])
    have ht : ∀ b, Call.setPower b ∉ tr := fun b hb => h b (by simp [hb])
    rw [countPowerOn_cons, if_neg hc, countPowerOn_eq_zero tr ht]

/-- Programs whose panic sites are all guarded by a nonempty lights list. -/
def panicGuarded : Prog → Prop
  | .pure => True
  | .panic => False
  | .get k => ∀ lights, lights ≠ [] → panicGuarded (k lights)
  | .put _ k => panicGuarded k

/-- A guarded program never reports the indexing panic on a device whose
every state has at least one light. -/
theorem panicGuarded_exec (p : Prog) :
    ∀ (dev : Device) (n g : Nat), panicGuarded p → (∀ j, dev.states j ≠ []) →
      (execP p dev n g).2 ≠ .error .panic := by
  induction p with
  | pure => intro dev n g _ _; simp [execP]
  | panic => intro dev n g hg _; exact False.elim hg
  | get k ih =>
    intro dev n g hg hs
    cases h : dev.respond n with
    | some e => simp [execP, h]
    | none =>
      simp only [execP, h]
      exact ih (dev.states g) dev (n + 1) (g + 1) (hg (dev.states g) (hs g)) hs
  | put c k ih =>
    intro dev n g hg hs
    cases h : dev.respond n with
    | some e => simp [execP, h]
    | none =>
      simp only [execP, h]
      exact ih dev (n + 1) g hg hs

/-- Every call of a trace except possibly the last one succeeded: the trace
position of a call is its respond index, offset by the starting index n. -/
theorem execP_before_last (p : Prog) :
    ∀ (dev : Device) (n g i : Nat), i + 1 < (execP p dev n g).1.length →
      dev.respond (n + i) = none := by
  induction p with
  | pure => intro dev n g i hi; simp [execP] at hi
  | panic => intro dev n g i hi; simp [execP] at hi
  | get k ih =>
    intro dev n g i hi
    cases h : dev.respond n with
    | some e => simp [execP, h] at hi
    | none =>
      simp only [execP, h, List.length_cons] at hi
      cases i with
      | zero => simpa using h
      | succ j =>
        have hj := ih (dev.states g) dev (n + 1) (g + 1) j (by omega)
        have hx : n + (j + 1) = n + 1 + j := by omega
        rw [hx]
        exact hj
  | put c k ih =>
    intro dev n g i hi
    cases h : dev.respond n with
    | some e => simp [execP, h] at hi
    | none =>
      simp only [execP, h, List.length_cons] at hi
      cases i with
      | zero => simpa using h
      | succ j =>
        have hj := ih dev (n + 1) g j (by omega)
        have hx : n + (j + 1) = n + 1 + j := by omega
        rw [hx]
        exact hj

/-- If the i-th issued call failed with e, the whole invocation reports
exactly that device error. -/
theorem execP_error_respond (p : Prog) :
    ∀ (dev : Device) (n g i e : Nat), i < (execP p dev n g).1.length →
      dev.respond (n + i) = some e → (execP p dev n g).2 = .error (.device e) := by
  induction p with
  | pure => intro dev n g i e hi _; simp [execP] at hi
  | panic => intro dev n g i e hi _; simp [execP] at hi
  | get k ih =>
    intro dev n g i e hi he
    cases h : dev.respond n with
    | some e0 =>
      simp only [execP, h, List.length_singleton] at hi
      have hz : i = 0 := by omega
      subst hz
      rw [Nat.add_zero, h] at he
      injection he with he
      subst he
      simp [execP, h]
    | none =>
      simp only [execP, h, List.length_cons] at hi
      cases i with
      | zero =>
        rw [Nat.add_zero, h] at he
        exact absurd he (by simp)
      | succ j =>
        have hx : n + (j + 1) = n + 1 + j := by omega
        rw [hx] at he
        have := ih (dev.states g) dev (n + 1) (g + 1) j e (by omega) he
        simp only [execP, h]
        exact this
  | put c k ih =>
    intro dev n g i e hi he
    cases h : dev.respond n with
    | some e0 =>
      simp only [execP, h, List.length_singleton] at hi
      have hz : i = 0 := by omega
      subst hz
      rw [Nat.add_zero, h] at he
      injection he with he
      subst he
      simp [execP, h]
    | none =>
      simp only [execP, h, List.length_cons] at hi
      cases i with
      | zero =>
        rw [Nat.add_zero, h] at he
        exact absurd he (by simp)
      | succ j =>
        have hx : n + (j + 1) = n + 1 + j := by omega
        rw [hx] at he
        have := ih dev (n + 1) g j e (by omega) he
        simp only [execP, h]
        exact this

/-- The trace against a device with failures is a prefix of the trace the
same device states would produce with every call succeeding. -/
theorem execP_allOk (p : Prog) :
    ∀ (dev : Device) (n g : Nat),
      ∃ rest, (execP p (Device.allOk dev) n g).1 = (execP p dev n g).1 ++ rest := by
  induction p with
  | pure => intro dev n g; exact ⟨[], rfl⟩
  | panic => intro dev n g; exact ⟨[], rfl⟩
  | get k ih =>
    intro dev n g
    cases h : dev.respond n with
    | some e =>
      refine ⟨(execP (k (dev.states g)) (Device.allOk dev) (n + 1) (g + 1)).1, ?_⟩
      simp [execP, h, Device.allOk]
    | none =>
      obtain ⟨rest, hr⟩ := ih (dev.states g) dev (n + 1) (g + 1)
      refine ⟨rest, ?_⟩
      simp only [execP, h, Device.allOk]
      simp only [List.cons_append, List.cons.injEq, true_and]
      exact hr
  | put c k ih =>
    intro dev n g
    cases h : dev.respond n with
    | some e =>
      refine ⟨(execP k (Device.allOk dev) (n + 1) g).1, ?_⟩
      simp [execP, h, Device.allOk]
    | none =>
      obtain ⟨rest, hr⟩ := ih dev (n + 1) g
      refine ⟨rest, ?_⟩
      simp only [execP, h, Device.allOk]
      simp only [List.cons_append, List.cons.injEq, true_and]
      exact hr

/-- Claim C1.  The spec asserts the delta arithmetic is wide enough to
avoid overflow, so for current brightness 90 and delta 50 the result would
be clamp(140, 0, 100) = 100.  The code adds in i8: 90 + 50 overflows the
i8 range, so release builds wrap the sum to -116 and clamp it to 0, and
builds with overflow checks panic; the value 100 is never produced. -/
theorem claim1_overflow :
    newBrightness 90 50 = 0 ∧ i8AddOverflows (i8FromU8 90) 50 ∧
      clamp ((90 : Int) + 50) 0 100 = 100 := by
  refine ⟨by decide, by decide, by decide⟩

/-- Claim C2 fails on the code: a bare -50 token is read as an unrecognised
flag, not as the delta (the subcommand's own help text directs users to the
-- separator for negative values), and 120 — outside -100..=100 — parses
without error because the only range check is i8's. -/
theorem claim2_counterexample :
    parse ["brightness", "-50"] = .error (.unexpectedArgument "-50") ∧
      parse ["brightness", "120"] = .ok (.brightness 120 DEFAULT_IP_ADDRESS) :=
  ⟨rfl, rfl⟩

/-- Claim C2 amended: a negative delta is accepted only after the --
separator, where it parses as a signed integer; without the separator a
leading-hyphen token is an unexpected-argument parse error; the accepted
range is i8's -128..=127 (120 parses, -128 parses), and only values outside
that range (150, -129) are parse errors — all before any network contact,
since parsing is pure. -/
theorem claim2_amended :
    parse ["brightness", "--", "-50"] = .ok (.brightness (-50) DEFAULT_IP_ADDRESS) ∧
      parse ["brightness", "-50"] = .error (.unexpectedArgument "-50") ∧
      parse ["brightness", "120"] = .ok (.brightness 120 DEFAULT_IP_ADDRESS) ∧
      parse ["brightness", "--", "-128"] = .ok (.brightness (-128) DEFAULT_IP_ADDRESS) ∧
      parse ["brightness", "150"] = .error (.invalidValue "150") ∧
      parse ["brightness", "--", "-129"] = .error (.invalidValue "-129") :=
  ⟨rfl, rfl, rfl, rfl, rfl, rfl⟩

/-- Claim C3 fails on the code: the on subcommand accepts brightness 200 —
any u8, there is no 0..=100 validation — and its run arm passes the value
straight to set_brightness. -/
theorem claim3_counterexample :
    parse ["on", "--brightness", "200"] = .ok (.on 200 3000 DEFAULT_IP_ADDRESS) ∧
      Call.setBrightness 200 ∈ (ElgatoLight.exec (.on 200 3000 DEFAULT_IP_ADDRESS) devOn).1 ∧
      ¬ (200 : Nat) ≤ 100 := by
  refine ⟨rfl, by decide, by decide⟩

/-- Claim C4.  On a device reporting power on and brightness 90, the
command brightness 50 issues two state reads — ensure_light_on reads, then
the Brightness arm reads again — and then set_brightness(0): the 8-bit sum
90 + 50 wraps to -116 and clamps to 0 in release builds (builds with
overflow checks panic at the addition).  The spec expects one read followed
by set_brightness(100).  No power write occurs, as claimed. -/
theorem claim4_saturation_bug :
    ElgatoLight.exec (.brightness 50 DEFAULT_IP_ADDRESS) dev90 =
        ([.get, .get, .setBrightness 0], .ok ()) ∧
      i8AddOverflows (i8FromU8 90) 50 ∧
      Call.setBrightness 100 ∉ (ElgatoLight.exec (.brightness 50 DEFAULT_IP_ADDRESS) dev90).1 ∧
      Call.setPower true ∉ (ElgatoLight.exec (.brightness 50 DEFAULT_IP_ADDRESS) dev90).1 := by
  refine ⟨rfl, by decide, by decide, by decide⟩

/-- The §4.2.1 contract for one execution trace: the first facade call is
the precondition read; a device that reports on gets no power write at all;
a device whose read succeeds and reports off gets set_power(true) exactly
once, placed immediately after the read. -/
def readThenPower (dev : Device) (tr : List Call) : Prop :=
  tr.head? = some Call.get ∧
  ((∀ l, (dev.states 0).head? = some l → l.onFlag ≠ 0) →
    ∀ b, Call.setPower b ∉ tr) ∧
  (dev.respond 0 = none →
    ∀ l, (dev.states 0).head? = some l → l.onFlag = 0 →
      countPowerOn tr = 1 ∧ tr[1]? = some (Call.setPower true))

/-- ensure_light_on followed by any power-write-free continuation satisfies
the §4.2.1 contract, whatever the device responds. -/
theorem ensure_readThenPower (k : Prog) (hk : noPower k) (dev : Device) :
    readThenPower dev (execP (ensure_light_on k) dev 0 0).1 := by
  cases h0 : dev.respond 0 with
  | some e =>
    have hE : (execP (ensure_light_on k) dev 0 0).1 = [Call.get] := by
      simp [ensure_light_on, execP, h0]
    rw [hE]
    exact ⟨rfl, fun _ b => by simp, fun hr => absurd h0 (by simp [hr])⟩
  | none =>
    cases hL : dev.states 0 with
    | nil =>
      have hE : (execP (ensure_light_on k) dev 0 0).1 = [Call.get] := by
        simp [ensure_light_on, execP, h0, hL]
      rw [hE]
      refine ⟨rfl, fun _ b => by simp, fun _ l hl => ?_⟩
      rw [hL] at hl
      simp at hl
    | cons a as =>
      by_cases hon : a.onFlag = 0
      · cases h1 : dev.respond 1 with
        | some e =>
          have hE : (execP (ensure_light_on k) dev 0 0).1 =
              [Call.get, Call.setPower true] := by
            simp [ensure_light_on, execP, h0, hL, hon, h1]
          rw [hE]
          refine ⟨rfl, fun hno b => absurd hon (hno a (by rw [hL]; rfl)), ?_⟩
          intro _ l hl hl0
          exact ⟨by decide, rfl⟩
        | none =>
          have hE : (execP (ensure_light_on k) dev 0 0).1 =
              Call.get :: Call.setPower true :: (execP k dev 2 1).1 := by
            simp [ensure_light_on, execP, h0, hL, hon, h1]
          rw [hE]
          refine ⟨rfl, fun hno b => absurd hon (hno a (by rw [hL]; rfl)), ?_⟩
          intro _ l hl hl0
          have hz := countPowerOn_eq_zero (execP k dev 2 1).1
            (fun b => noPower_exec k dev 2 1 b hk)
          refine ⟨?_, by simp⟩
          rw [countPowerOn_cons, countPowerOn_cons, hz]
          simp
      · have hE : (execP (ensure_light_on k) dev 0 0).1 =
            Call.get :: (execP k dev 1 1).1 := by
          simp [ensure_light_on, execP, h0, hL, hon]
        rw [hE]
        refine ⟨rfl, fun _ b => ?_, fun _ l hl hl0 => ?_⟩
        · simp only [List.mem_cons, not_or]
          exact ⟨by simp, noPower_exec k dev 1 1 b hk⟩
        · rw [hL] at hl
          simp only [List.head?_cons, Option.some.injEq] at hl
          rw [← hl] at hl0
          exact absurd hl0 hon

/-- Claim C9: the on subcommand with no flags parses with the documented
defaults brightness 10 and temperature 3000, and every one of the five
subcommands falls back to the DEFAULT_IP_ADDRESS constant when the
ip-address flag is omitted. -/
theorem claim9_defaults :
    parse ["on"] = .ok (.on 10 3000 DEFAULT_IP_ADDRESS) ∧
      parse ["off"] = .ok (.off DEFAULT_IP_ADDRESS) ∧
      parse ["brightness", "5"] = .ok (.brightness 5 DEFAULT_IP_ADDRESS) ∧
      parse ["temperature", "5000"] = .ok (.temperature 5000 DEFAULT_IP_ADDRESS) ∧
      parse ["status"] = .ok (.status DEFAULT_IP_ADDRESS) :=
  ⟨rfl, rfl, rfl, rfl, rfl⟩

/-- The Brightness arm continuation after ensure_light_on issues no power
write. -/
theorem noPower_brightness_k (d : Int) :
    noPower (.get fun lights =>
      match lights.head? with
      | none => Prog.panic
      | some l1 => .put (.setBrightness (newBrightness l1.brightness d)) .pure) := by
  intro lights
  cases lights with
  | nil => exact trivial
  | cons a as => exact ⟨fun b hb => Call.noConfusion hb, trivial⟩

/-- The Brightness arm continuation only writes clamped brightness
values. -/
theorem brightnessBounded_brightness_k (d : Int) :
    brightnessBounded (.get fun lights =>
      match lights.head? with
      | none => Prog.panic
      | some l1 => .put (.setBrightness (newBrightness l1.brightness d)) .pure) := by
  intro lights
  cases lights with
  | nil => exact trivial
  | cons a as =>
    refine ⟨fun v hv => ?_, trivial⟩
    injection hv with hv
    rw [← hv]
    exact newBrightness_le a.brightness d

/-- ensure_light_on preserves brightness-boundedness of the
continuation. -/
theorem brightnessBounded_ensure (k : Prog) (hk : brightnessBounded k) :
    brightnessBounded (ensure_light_on k) := by
  intro lights
  cases lights with
  | nil => exact trivial
  | cons a as =>
    by_cases hon : a.onFlag = 0
    · show brightnessBounded (if a.onFlag = 0 then .put (.setPower true) k else k)
      rw [if_pos hon]
      exact ⟨fun v hv => Call.noConfusion hv, hk⟩
    · show brightnessBounded (if a.onFlag = 0 then .put (.setPower true) k else k)
      rw [if_neg hon]
      exact hk

/-- Every arm of run has its panic sites guarded by a nonempty lights
list. -/
theorem panicGuarded_run (l : ElgatoLight) : panicGuarded (ElgatoLight.run l) := by
  rcases l with ⟨b, t, ip⟩ | ⟨ip⟩ | ⟨d, ip⟩ | ⟨t, ip⟩ | ⟨ip⟩
  · exact trivial
  · exact trivial
  · intro lights hne
    cases lights with
    | nil => exact absurd rfl hne
    | cons a as =>
      have hg : panicGuarded (Prog.get fun lights =>
          match lights.head? with
          | none => Prog.panic
          | some l1 => .put (.setBrightness (newBrightness l1.brightness d)) .pure) := by
        intro lights2 hne2
        cases lights2 with
        | nil => exact absurd rfl hne2
        | cons a2 as2 => exact trivial
      show panicGuarded (if a.onFlag = 0
        then Prog.put (Call.setPower true) (.get fun lights =>
          match lights.head? with
          | none => Prog.panic
          | some l1 => .put (.setBrightness (newBrightness l1.brightness d)) .pure)
        else .get fun lights =>
          match lights.head? with
          | none => Prog.panic
          | some l1 => .put (.setBrightness (newBrightness l1.brightness d)) .pure)
      by_cases hon : a.onFlag = 0
      · rw [if_pos hon]; exact hg
      · rw [if_neg hon]; exact hg
  · intro lights hne
    cases lights with
    | nil => exact absurd rfl hne
    | cons a as =>
      show panicGuarded (if a.onFlag = 0
        then Prog.put (Call.setPower true) (.put (.setTemperature t) .pure)
        else .put (.setTemperature t) .pure)
      by_cases hon : a.onFlag = 0
      · rw [if_pos hon]; exact trivial
      · rw [if_neg hon]; exact trivial
  · exact fun lights _ => trivial

/-- Claim C3 amended: every set_brightness issued by the AdjustBrightness
arm carries a value clamped into 0..=100, for every device response and
delta; the On arm passes its parsed brightness through unvalidated, so its
set_brightness value is at most 100 exactly when the parsed brightness
already is. -/
theorem claim3_amended :
    (∀ (d : Int) (ip : String) (dev : Device) (v : Nat),
        Call.setBrightness v ∈ (ElgatoLight.exec (.brightness d ip) dev).1 →
          v ≤ 100) ∧
      (∀ (b t : Nat) (ip : String) (dev : Device) (v : Nat), b ≤ 100 →
        Call.setBrightness v ∈ (ElgatoLight.exec (.on b t ip) dev).1 → v ≤ 100) := by
  constructor
  · intro d ip dev v hm
    exact brightnessBounded_exec _ dev 0 0 v
      (brightnessBounded_ensure _ (brightnessBounded_brightness_k d)) hm
  · intro b t ip dev v hb hm
    refine brightnessBounded_exec
      (.put (.setPower true) (.put (.setBrightness b) (.put (.setTemperature t) .pure)))
      dev 0 0 v
      ⟨fun v2 hv => Call.noConfusion hv, fun v2 hv => ?_,
        fun v2 hv => Call.noConfusion hv, trivial⟩ hm
    injection hv with hv
    omega

/-- Witness for claim3_amended: the clamped delta write 0 and the in-range
On write 10, both at concrete devices. -/
theorem claim3_witness : (0 : Nat) ≤ 100 ∧ (10 : Nat) ≤ 100 :=
  ⟨claim3_amended.1 50 DEFAULT_IP_ADDRESS dev90 0 (by decide),
   claim3_amended.2 10 3000 DEFAULT_IP_ADDRESS devOn 10 (by decide) (by decide)⟩

/-- Claim C5: for AdjustBrightness and SetTemperature the first facade call
is always the precondition read; a device reporting on receives no power
write at all; a device whose read succeeds and reports off receives
set_power(true) exactly once, immediately after the read, before the arm
proceeds. -/
theorem claim5_power_precondition (d : Int) (t : Nat) (ip : String) (dev : Device) :
    readThenPower dev (ElgatoLight.exec (.brightness d ip) dev).1 ∧
      readThenPower dev (ElgatoLight.exec (.temperature t ip) dev).1 := by
  constructor
  · exact ensure_readThenPower _ (noPower_brightness_k d) dev
  · exact ensure_readThenPower (.put (.setTemperature t) .pure)
      ⟨fun b hb => Call.noConfusion hb, trivial⟩ dev

/-- Witness for claim5_power_precondition on the powered-off device. -/
theorem claim5_witness :
    countPowerOn (ElgatoLight.exec (.brightness 5 "10.0.0.1") devOff).1 = 1 ∧
      (ElgatoLight.exec (.temperature 4000 "10.0.0.1") devOff).1[1]? =
        some (Call.setPower true) := by
  have h := claim5_power_precondition 5 4000 "10.0.0.1" devOff
  exact ⟨(h.1.2.2 rfl ⟨0, 20, 3000⟩ rfl rfl).1, (h.2.2.2 rfl ⟨0, 20, 3000⟩ rfl rfl).2⟩

/-- Claim C6: the On arm never reads device state, and when no facade call
fails it issues exactly set_power(true), set_brightness(b),
set_temperature(t), in that order, whatever the device state. -/
theorem claim6_on_sequence (b t : Nat) (ip : String) (dev : Device) :
    Call.get ∉ (ElgatoLight.exec (.on b t ip) dev).1 ∧
      ((∀ n, dev.respond n = none) →
        ElgatoLight.exec (.on b t ip) dev =
          ([.setPower true, .setBrightness b, .setTemperature t], .ok ())) := by
  constructor
  · cases h0 : dev.respond 0 with
    | some e => simp [ElgatoLight.exec, ElgatoLight.run, execP, h0]
    | none =>
      cases h1 : dev.respond 1 with
      | some e => simp [ElgatoLight.exec, ElgatoLight.run, execP, h0, h1]
      | none =>
        cases h2 : dev.respond 2 with
        | some e => simp [ElgatoLight.exec, ElgatoLight.run, execP, h0, h1, h2]
        | none => simp [ElgatoLight.exec, ElgatoLight.run, execP, h0, h1, h2]
  · intro h
    simp [ElgatoLight.exec, ElgatoLight.run, execP, h]

/-- Witness for claim6_on_sequence on the all-succeeding device. -/
theorem claim6_witness :
    ElgatoLight.exec (.on 10 3000 "192.168.0.25") devOn =
      ([.setPower true, .setBrightness 10, .setTemperature 3000], .ok ()) :=
  (claim6_on_sequence 10 3000 "192.168.0.25" devOn).2 (fun _ => rfl)

/-- Claim C7: in every invocation all issued calls except possibly the last
succeeded (a failing call is the last one issued, so nothing follows it);
an issued call failing with e makes the invocation report exactly that
device error; and the issued trace is a prefix of the trace the same device
states would produce with no failure, so no rollback call is ever added. -/
theorem claim7_abort_on_failure (l : ElgatoLight) (dev : Device) :
    (∀ i, i + 1 < (ElgatoLight.exec l dev).1.length → dev.respond i = none) ∧
      (∀ i e, i < (ElgatoLight.exec l dev).1.length → dev.respond i = some e →
        (ElgatoLight.exec l dev).2 = .error (.device e)) ∧
      (∃ rest, (ElgatoLight.exec l (Device.allOk dev)).1 =
        (ElgatoLight.exec l dev).1 ++ rest) := by
  refine ⟨fun i hi => ?_, fun i e hi he => ?_, ?_⟩
  · have h := execP_before_last (ElgatoLight.run l) dev 0 0 i hi
    simpa using h
  · exact execP_error_respond (ElgatoLight.run l) dev 0 0 i e hi (by simpa using he)
  · exact execP_allOk (ElgatoLight.run l) dev 0 0

/-- Witness for claim7_abort_on_failure: on devFail1 the On sequence stops
at the failing set_brightness and reports error 7. -/
theorem claim7_witness :
    (ElgatoLight.exec (.on 10 3000 "192.168.0.25") devFail1).2 =
      .error (.device 7) :=
  (claim7_abort_on_failure (.on 10 3000 "192.168.0.25") devFail1).2.1 1 7
    (by decide) rfl

/-- Claim C8: whenever the parsed command's address fails Ipv4Addr parsing,
main stops at ip_address with the input error and the trace is empty: no
facade call and no connection attempt happens. -/
theorem claim8_invalid_ip (args : List String) (dev : Device)
    (light : ElgatoLight) (hp : parse args = .ok light)
    (hip : parseIpv4 light.ip_str = none) :
    mainRun args dev = ([], .error .invalidIp) := by
  simp [mainRun, hp, hip]

/-- Witness for claim8_invalid_ip at the spec's example address. -/
theorem claim8_witness :
    mainRun ["status", "-i", "999.1.1.1"] devOn = ([], .error .invalidIp) :=
  claim8_invalid_ip ["status", "-i", "999.1.1.1"] devOn (.status "999.1.1.1")
    rfl rfl

/-- Claim C10: every state read of the power precondition and of the
Brightness arm indexes lights[0] unguarded; under the precondition that
every fetched state has at least one light no invocation can report the
indexing panic, and on a device reporting an empty lights list the
Brightness arm panics right after its first read. -/
theorem claim10_lights_index :
    (∀ (l : ElgatoLight) (dev : Device), (∀ j, dev.states j ≠ []) →
        (ElgatoLight.exec l dev).2 ≠ .error .panic) ∧
      ElgatoLight.exec (.brightness 5 DEFAULT_IP_ADDRESS) devEmpty =
        ([.get], .error .panic) := by
  constructor
  · intro l dev hs
    exact panicGuarded_exec _ dev 0 0 (panicGuarded_run l) hs
  · rfl

/-- Witness for claim10_lights_index on a device with one light. -/
theorem claim10_witness :
    (ElgatoLight.exec (.status "192.168.0.25") devOn).2 ≠ .error .panic :=
  claim10_lights_index.1 (.status "192.168.0.25") devOn (fun _ => by simp [devOn])

end Elgato
